import Mathlib

/-!
Verification of the versioned-translator core logic
(`versioned_translator/logic.py`): a shallow embedding of the translation
job, the translation-store writers, the version-identifier computation and
the update hook, together with theorems about the behaviours the design
document promises.

Modelling conventions:
* Python strings are Lean `String`s; document attribute access
  (`hasattr`/`getattr`) is an association-list lookup.
* Python truthiness of a string is "non-empty"; an optional string whose
  absence matters is an `Option String`.
* The Frappe database table "Translation Store" is a `List StoreRow`;
  `frappe.db.get_value` with a filter is "first row matching the filter";
  saving a loaded row writes it back in place.
* `requests.post` and `frappe.log_error` are injected effectful
  primitives that may raise (`Except PyExc`); every `try/except` of the
  source is translated to explicit `Except` plumbing.
* `hashlib.md5(...).hexdigest()` is implemented bit-for-bit below over
  `Nat` (inputs in this development are ASCII, where `.encode()` is the
  byte sequence of the code points).
* `datetime.now()` is an explicit parameter of the functions that read it.
-/

/-- Python `str.upper()` on one ASCII character
(`'a'..'z'` are code points 97..122). -/
def pyUpperChar (c : Char) : Char :=
  if 97 ≤ c.toNat ∧ c.toNat ≤ 122 then Char.ofNat (c.toNat - 32) else c

/-- Python `str.lower()` on one ASCII character
(`'A'..'Z'` are code points 65..90). -/
def pyLowerChar (c : Char) : Char :=
  if 65 ≤ c.toNat ∧ c.toNat ≤ 90 then Char.ofNat (c.toNat + 32) else c

/-- Python `str.upper()` (ASCII fragment). -/
def pyUpper (s : String) : String :=
  String.mk (s.data.map pyUpperChar)

/-- Python `str.lower()` (ASCII fragment). -/
def pyLower (s : String) : String :=
  String.mk (s.data.map pyLowerChar)

/-- Python's default `str.strip()` whitespace set (ASCII fragment). -/
def isPySpace (c : Char) : Bool :=
  c == ' ' || c == '\t' || c == '\n' || c == '\r' || c == '\x0b' || c == '\x0c'

/-- Python `str.strip()`: drop leading and trailing whitespace. -/
def pyStrip (s : String) : String :=
  String.mk (((s.data.dropWhile isPySpace).reverse.dropWhile isPySpace).reverse)

/-- Python `str.split(",")` on a character list: splitting an empty
string yields `[""]`, like Python. -/
def pySplitComma : List Char → List String
  | [] => [""]
  | c :: rest =>
    if c = ',' then "" :: pySplitComma rest
    else
      match pySplitComma rest with
      | [] => [String.mk [c]]
      | t :: ts => String.mk (c :: t.data) :: ts

/-- Python `str.split(",")`. -/
def pySplit (s : String) : List String :=
  pySplitComma s.data

/-- Insertion into a Python `dict` modelled as an association list:
replace the value of an existing key in place, else append. -/
def dictInsert (k v : String) : List (String × String) → List (String × String)
  | [] => [(k, v)]
  | (k', v') :: rest =>
    if k' = k then (k, v) :: rest else (k', v') :: dictInsert k v rest

/-- `json.dumps` escaping for one character (ASCII printable fragment). -/
def jsonEscapeChar (c : Char) : List Char :=
  if c = '"' ∨ c = '\\' then ['\\', c] else [c]

/-- `json.dumps` escaping of a string body. -/
def jsonEscape (s : String) : String :=
  String.mk (s.data.flatMap jsonEscapeChar)

/-- Python `json.dumps` on a `dict` of strings (default separators). -/
def jsonDumps (l : List (String × String)) : String :=
  "\x7b" ++
    String.intercalate ", "
      (l.map (fun kv => "\"" ++ jsonEscape kv.1 ++ "\": \"" ++ jsonEscape kv.2 ++ "\"")) ++
  "\x7d"

/-! ## MD5 (`hashlib.md5`), over `Nat` with arithmetic mod `2^32` -/

/-- Reduce modulo `2^32`. -/
def m32 (n : Nat) : Nat := n % 4294967296

/-- 32-bit bitwise complement (argument below `2^32`). -/
def not32 (n : Nat) : Nat := 4294967295 - n

/-- 32-bit left rotation. -/
def rotl32 (x s : Nat) : Nat :=
  m32 (x <<< s) ||| (x >>> (32 - s))

/-- The MD5 sine-derived constant table. -/
def md5K : List Nat :=
  [3614090360, 3905402710, 606105819, 3250441966,
   4118548399, 1200080426, 2821735955, 4249261313,
   1770035416, 2336552879, 4294925233, 2304563134,
   1804603682, 4254626195, 2792965006, 1236535329,
   4129170786, 3225465664, 643717713, 3921069994,
   3593408605, 38016083, 3634488961, 3889429448,
   568446438, 3275163606, 4107603335, 1163531501,
   2850285829, 4243563512, 1735328473, 2368359562,
   4294588738, 2272392833, 1839030562, 4259657740,
   2763975236, 1272893353, 4139469664, 3200236656,
   681279174, 3936430074, 3572445317, 76029189,
   3654602809, 3873151461, 530742520, 3299628645,
   4096336452, 1126891415, 2878612391, 4237533241,
   1700485571, 2399980690, 4293915773, 2240044497,
   1873313359, 4264355552, 2734768916, 1309151649,
   4149444226, 3174756917, 718787259, 3951481745]

/-- The MD5 per-round shift table. -/
def md5S : List Nat :=
  [7, 12, 17, 22, 7, 12, 17, 22, 7, 12, 17, 22, 7, 12, 17, 22,
   5, 9, 14, 20, 5, 9, 14, 20, 5, 9, 14, 20, 5, 9, 14, 20,
   4, 11, 16, 23, 4, 11, 16, 23, 4, 11, 16, 23, 4, 11, 16, 23,
   6, 10, 15, 21, 6, 10, 15, 21, 6, 10, 15, 21, 6, 10, 15, 21]

/-- One MD5 round: mixing function value and message-word index. -/
def md5FG (b c d i : Nat) : Nat × Nat :=
  if i < 16 then ((b &&& c) ||| (not32 b &&& d), i)
  else if i < 32 then ((d &&& b) ||| (not32 d &&& c), (5 * i + 1) % 16)
  else if i < 48 then (b ^^^ c ^^^ d, (3 * i + 5) % 16)
  else (c ^^^ (b ||| not32 d), (7 * i) % 16)

/-- One step of the 64-step MD5 compression loop. -/
def md5Step (m : List Nat) (st : Nat × Nat × Nat × Nat) (i : Nat) :
    Nat × Nat × Nat × Nat :=
  let (a, b, c, d) := st
  let (f, g) := md5FG b c d i
  let rotated := rotl32 (m32 (a + f + md5K.getD i 0 + m.getD g 0)) (md5S.getD i 0)
  (d, m32 (b + rotated), b, c)

/-- Decode a 64-byte block into 16 little-endian 32-bit words. -/
def md5Words : List Nat → List Nat
  | b0 :: b1 :: b2 :: b3 :: rest =>
    (b0 + 256 * b1 + 65536 * b2 + 16777216 * b3) :: md5Words rest
  | _ => []

/-- Process one 64-byte block, updating the four-word state. -/
def md5Block (st : Nat × Nat × Nat × Nat) (block : List Nat) :
    Nat × Nat × Nat × Nat :=
  let m := md5Words block
  let (a0, b0, c0, d0) := st
  let (a, b, c, d) := (List.range 64).foldl (md5Step m) (a0, b0, c0, d0)
  (m32 (a0 + a), m32 (b0 + b), m32 (c0 + c), m32 (d0 + d))

/-- Split a byte list into 64-byte chunks (fuel-recursive to keep kernel
reduction structural). -/
def chunks64 (fuel : Nat) (l : List Nat) : List (List Nat) :=
  match fuel with
  | 0 => []
  | fuel' + 1 =>
    match l with
    | [] => []
    | _ => l.take 64 :: chunks64 fuel' (l.drop 64)

/-- MD5 padding: `0x80`, zeros to 56 mod 64, then the 64-bit little-endian
bit length. -/
def md5Pad (msg : List Nat) : List Nat :=
  let len := msg.length
  let zeros := (56 + 64 - (len + 1) % 64) % 64
  let bitlen := 8 * len
  msg ++ 128 :: List.replicate zeros 0 ++
    [bitlen % 256, bitlen / 256 % 256, bitlen / 65536 % 256,
     bitlen / 16777216 % 256, bitlen / 4294967296 % 256,
     bitlen / 1099511627776 % 256, bitlen / 281474976710656 % 256,
     bitlen / 72057594037927936 % 256]

/-- The four-word MD5 digest state of a byte message. -/
def md5Digest (msg : List Nat) : Nat × Nat × Nat × Nat :=
  let padded := md5Pad msg
  (chunks64 padded.length padded).foldl md5Block
    (1732584193, 4023233417, 2562383102, 271733878)

/-- A 32-bit word as four little-endian bytes. -/
def wordBytesLE (w : Nat) : List Nat :=
  [w % 256, w / 256 % 256, w / 65536 % 256, w / 16777216 % 256]

/-- The sixteen digest bytes. -/
def md5DigestBytes (msg : List Nat) : List Nat :=
  wordBytesLE (md5Digest msg).1 ++ wordBytesLE (md5Digest msg).2.1 ++
    wordBytesLE (md5Digest msg).2.2.1 ++ wordBytesLE (md5Digest msg).2.2.2

/-- One lowercase hexadecimal digit character: code point 48 + n for the
decimal digits, 87 + n for `a`..`f` (out-of-range values, which no caller
produces, default to the zero digit). -/
def hexDigit (n : Nat) : Char :=
  if n < 10 then Char.ofNat (48 + n)
  else if n < 16 then Char.ofNat (87 + n)
  else Char.ofNat 48

/-- The sixteen lowercase hexadecimal digits. -/
def hexDigits : List Char :=
  (List.range 16).map hexDigit

/-- Bytes to lowercase hex characters, two per byte. -/
def hexOfBytes : List Nat → List Char
  | [] => []
  | b :: rest => hexDigit (b / 16) :: hexDigit (b % 16) :: hexOfBytes rest

/-- `hashlib.md5(s.encode()).hexdigest()` as a character list
(ASCII inputs: `.encode()` is the list of code points). -/
def md5HexChars (s : String) : List Char :=
  hexOfBytes (md5DigestBytes (s.data.map Char.toNat))

/-- `hashlib.md5(s.encode()).hexdigest()[:12]`. -/
def md5Hex12 (s : String) : String :=
  String.mk ((md5HexChars s).take 12)

/-! ## Data model -/

/-- The singleton "Translation Settings" record, as returned by
`get_translation_settings`. A missing/`None` string value is modelled as
`""` (both are falsy wherever the source tests these fields). -/
structure Settings where
  api_key : String
  enable_auto_translation : Bool
  auto_translate_on_update : Bool
  default_source_language : String
  default_target_languages : String
deriving DecidableEq, Repr

/-- One "Field Mapping" child row of a Translation Map. -/
structure FieldMapping where
  field_name : String
  translate : Bool
deriving DecidableEq, Repr

/-- A loaded host-framework document. `modified` is the `modified`
attribute when present (Frappe represents datetimes as strings; the
`datetime` branch of the source formats to second precision first, which
this embedding treats as the given string). `fields` is the attribute
namespace consulted by `hasattr`/`getattr` for mapped fields, and
`changed` is the `_changed` change-tracking list. -/
structure Doc where
  doctype : String
  name : String
  modified : Option String
  fields : List (String × String)
  changed : List String
deriving DecidableEq, Repr

/-- One row of the "Translation Store" table. -/
structure StoreRow where
  parent_doctype : String
  parent_name : String
  version_id : String
  language : String
  translated_content : String
  translation_status : String
  edit_mode : Bool
  last_translated : Option Nat
deriving DecidableEq, Repr

/-- The Translation Store table. -/
abbrev Store := List StoreRow

/-- The composite-key filter passed to `frappe.db.get_value`. -/
def rowMatches (dt dn v lg : String) (r : StoreRow) : Bool :=
  r.parent_doctype == dt && r.parent_name == dn && r.version_id == v && r.language == lg

/-- A Python exception, split by the two `except` clauses of the source
(`requests.exceptions.RequestException` versus everything else). -/
inductive PyExc where
  | requestException (msg : String)
  | other (msg : String)
deriving DecidableEq, Repr

/-- `str(e)`. -/
def pyStr : PyExc → String
  | .requestException m => m
  | .other m => m

/-- The provider response body as seen through `response.json()` and the
two accesses the source makes: `invalid` means `.json()` raises,
`noTranslations` means valid JSON without a non-empty check-able
`"translations"` key, and `translations items` carries each array entry's
optional `"text"` field. -/
inductive RespBody where
  | invalid
  | noTranslations
  | translations (items : List (Option String))
deriving DecidableEq, Repr

/-- An HTTP response (`text` is the raw body used in log messages). -/
structure HttpResponse where
  status_code : Nat
  text : String
  body : RespBody
deriving DecidableEq, Repr

/-- The outbound DeepL request assembled by `translate_text`. -/
structure DeepLRequest where
  text : String
  source_lang : String
  target_lang : String
  auth : String
deriving DecidableEq, Repr

/-- The injected effectful environment: `post` is `requests.post` (an
`error` outcome is a raised exception, transport errors being
`requestException`), `logError` is `frappe.log_error` (which can itself
raise), `nowStr` is `datetime.now().strftime("%Y%m%d%H%M%S")` and
`nowTime` is the `datetime.now()` written to `last_translated`. -/
structure Env where
  post : DeepLRequest → Except PyExc HttpResponse
  logError : String → Except PyExc Unit
  nowStr : String
  nowTime : Nat

/-- The arguments of the `frappe.enqueue` call made by `on_doc_update`. -/
structure EnqueueCall where
  method : String
  doctype : String
  docname : String
  queue : String
  timeout : Nat
deriving DecidableEq, Repr

/-! ## Operations (`versioned_translator/logic.py`) -/

/-- `get_version_id(doc)`: when `modified` is present and truthy, the id
is `f"{doc.name}_{md5(f"{doc.doctype}_{doc.name}_{modified_str}")[:12]}"`;
otherwise it is `f"{doc.name}_{now}"` with `now` the current wall-clock
time formatted `"%Y%m%d%H%M%S"`. -/
def get_version_id (now : String) (doc : Doc) : String :=
  match doc.modified with
  | some m =>
    if m = "" then doc.name ++ "_" ++ now
    else doc.name ++ "_" ++ md5Hex12 (doc.doctype ++ "_" ++ doc.name ++ "_" ++ m)
  | none => doc.name ++ "_" ++ now

/-- The field-collection loop of `translate_to_all_languages`
(lines 128-134), with the Python dict as accumulator. -/
def extract_fields_go (doc : Doc) (acc : List (String × String)) :
    List FieldMapping → List (String × String)
  | [] => acc
  | fm :: rest =>
    if fm.translate then
      match doc.fields.lookup fm.field_name with
      | some v =>
        if v = "" then extract_fields_go doc acc rest
        else extract_fields_go doc (dictInsert fm.field_name v acc) rest
      | none => extract_fields_go doc acc rest
    else extract_fields_go doc acc rest

/-- `fields_to_translate`: the mapped, present, truthy fields of `doc`. -/
def extract_fields (doc : Doc) (fms : List FieldMapping) : List (String × String) :=
  extract_fields_go doc [] fms

/-- Replace the first row satisfying `p` by its image under `f`
(loading the row named by `frappe.db.get_value` and saving it back). -/
def updateFirst (p : StoreRow → Bool) (f : StoreRow → StoreRow) : Store → Store
  | [] => []
  | r :: rest => if p r then f r :: rest else r :: updateFirst p f rest

/-- `save_translation_to_store`: upsert by the composite key; an existing
row gets content/status/timestamp overwritten, a new row is inserted with
`edit_mode = 0`. -/
def save_translation_to_store (now : Nat) (doctype docname version_id language : String)
    (translated_content : List (String × String)) (store : Store) : Store :=
  match store.find? (rowMatches doctype docname version_id language) with
  | some _ =>
    updateFirst (rowMatches doctype docname version_id language)
      (fun r =>
        { r with
          translated_content := jsonDumps translated_content,
          translation_status := "Completed",
          last_translated := some now }) store
  | none =>
    store ++
      [{ parent_doctype := doctype, parent_name := docname,
         version_id := version_id, language := language,
         translated_content := jsonDumps translated_content,
         translation_status := "Completed", edit_mode := false,
         last_translated := some now }]

/-- `update_translation_status`: set only `translation_status` on an
existing row; insert a row with content `"{}"` and the given status
otherwise. -/
def update_translation_status (doctype docname version_id language status : String)
    (store : Store) : Store :=
  match store.find? (rowMatches doctype docname version_id language) with
  | some _ =>
    updateFirst (rowMatches doctype docname version_id language)
      (fun r => { r with translation_status := status }) store
  | none =>
    store ++
      [{ parent_doctype := doctype, parent_name := docname,
         version_id := version_id, language := language,
         translated_content := "\x7b\x7d",
         translation_status := status, edit_mode := false,
         last_translated := none }]

/-- The form-encoded request body and auth header built by
`translate_text` (language codes upper-cased before transmission). -/
def deeplRequest (api_key text source_lang target_lang : String) : DeepLRequest :=
  { text := text, source_lang := pyUpper source_lang,
    target_lang := pyUpper target_lang,
    auth := "DeepL-Auth-Key " ++ api_key }

/-- The `try:` body of `translate_text`: post once; on HTTP 200 read the
`translations` array (`.invalid` = `response.json()` raises); on non-200
log the provider error (that log call sits inside the `try`). -/
def translate_text_try (env : Env) (data : DeepLRequest) :
    Except PyExc (Option String) :=
  match env.post data with
  | .error e => .error e
  | .ok response =>
    if response.status_code = 200 then
      match response.body with
      | .invalid => .error (.other "Expecting value")
      | .noTranslations => .ok none
      | .translations [] => .ok none
      | .translations (first :: _) => .ok first
    else
      match env.logError ("DeepL API Error: " ++ toString response.status_code
          ++ " - " ++ response.text) with
      | .error e => .error e
      | .ok _ => .ok none

/-- The two `except` clauses of `translate_text`: log and fall through to
`return None`; an exception raised by the log call itself propagates. -/
def translate_text_handle (env : Env) (tried : Except PyExc (Option String)) :
    Except PyExc (Option String) :=
  match tried with
  | .ok v => .ok v
  | .error (.requestException m) =>
    match env.logError ("DeepL API Request Error: " ++ m) with
    | .error e => .error e
    | .ok _ => .ok none
  | .error (.other m) =>
    match env.logError ("Error in translate_text: " ++ m) with
    | .error e => .error e
    | .ok _ => .ok none

/-- `translate_text`: one `requests.post`; HTTP 200 with a non-empty
`translations` array returns the first translation's `.get("text")`;
every other outcome is logged and `None` is returned — unless the logging
call itself raises, in which case the exception propagates to the caller.
The request that was sent is returned alongside for observability. -/
def translate_text (env : Env) (api_key text source_lang target_lang : String) :
    DeepLRequest × Except PyExc (Option String) :=
  (deeplRequest api_key text source_lang target_lang,
   translate_text_handle env
     (translate_text_try env (deeplRequest api_key text source_lang target_lang)))

/-- The per-language field loop of `translate_to_all_languages`
(lines 148-152): translate each field, keep truthy results; a raised
exception aborts the loop and is reported. Also accumulates the requests
sent. -/
def translateFields (env : Env) (api_key source_language target_lang : String)
    (acc : List (String × String)) (trace : List DeepLRequest) :
    List (String × String) → List (String × String) × List DeepLRequest × Option PyExc
  | [] => (acc, trace, none)
  | (field_name, field_value) :: rest =>
    let res := translate_text env api_key field_value source_language target_lang
    match res.2 with
    | .error e => (acc, trace ++ [res.1], some e)
    | .ok translated_text =>
      let acc' :=
        match translated_text with
        | some t => if t = "" then acc else dictInsert field_name t acc
        | none => acc
      translateFields env api_key source_language target_lang acc' (trace ++ [res.1]) rest

/-- The language loop of `translate_to_all_languages` (lines 145-167):
per target language, translate the fields and save a Completed row (keyed
by the lower-cased code) when any field translated; if the language's
attempt raised, log and mark the language (upper-cased key) Failed; if
that log call raises too, the exception leaves the loop for the outer
handler and the remaining languages are not processed. -/
def processLanguages (env : Env)
    (doctype docname api_key source_language version_id : String)
    (fields_to_translate : List (String × String)) :
    List String → Store → List DeepLRequest → Store × List DeepLRequest
  | [], store, trace => (store, trace)
  | target_lang :: rest, store, trace =>
    let r := translateFields env api_key source_language target_lang [] [] fields_to_translate
    let translated_fields := r.1
    let reqs := r.2.1
    match r.2.2 with
    | none =>
      let store' :=
        if translated_fields = [] then store
        else
          save_translation_to_store env.nowTime doctype docname version_id
            (pyLower target_lang) translated_fields store
      processLanguages env doctype docname api_key source_language version_id
        fields_to_translate rest store' (trace ++ reqs)
    | some e =>
      match env.logError ("Error translating " ++ doctype ++ " " ++ docname
          ++ " to " ++ target_lang ++ ": " ++ pyStr e) with
      | .ok _ =>
        processLanguages env doctype docname api_key source_language version_id
          fields_to_translate rest
          (update_translation_status doctype docname version_id target_lang "Failed" store)
          (trace ++ reqs)
      | .error _ => (store, trace ++ reqs)

/-- `translate_to_all_languages(doctype, docname)`: the async job.
`docOpt` is the `frappe.get_doc` result (`none` = raises), `settingsOpt`
the settings lookup, `mapOpt` the active Translation Map's field mappings
(`none` = no active map). Returns the final Translation Store and the
trace of DeepL requests sent. -/
def translate_to_all_languages (env : Env) (doctype docname : String)
    (docOpt : Option Doc) (settingsOpt : Option Settings)
    (mapOpt : Option (List FieldMapping)) (store : Store) :
    Store × List DeepLRequest :=
  match docOpt with
  | none => (store, [])
  | some doc =>
    match settingsOpt with
    | none => (store, [])
    | some settings =>
      if settings.api_key = "" then (store, [])
      else
        let api_key := settings.api_key
        let source_language :=
          if settings.default_source_language = "" then "de"
          else settings.default_source_language
        let target_languages_str := settings.default_target_languages
        if target_languages_str = "" then (store, [])
        else
          let target_languages :=
            (pySplit target_languages_str).filterMap
              (fun lang => if pyStrip lang = "" then none else some (pyUpper (pyStrip lang)))
          match mapOpt with
          | none => (store, [])
          | some field_mappings =>
            if field_mappings = [] then (store, [])
            else
              let fields_to_translate := extract_fields doc field_mappings
              if fields_to_translate = [] then (store, [])
              else
                let version_id := get_version_id env.nowStr doc
                processLanguages env doctype docname api_key source_language version_id
                  fields_to_translate target_languages store []

/-- `on_doc_update(doc, method)`: gate on settings flags and an active
map with mappings, then enqueue the job iff some changed field is a
mapped field with `translate` set. Returns the enqueue call made, if
any. -/
def on_doc_update (settingsOpt : Option Settings)
    (mapOpt : Option (List FieldMapping)) (doc : Doc) : Option EnqueueCall :=
  match settingsOpt with
  | none => none
  | some settings =>
    if settings.enable_auto_translation && settings.auto_translate_on_update then
      match mapOpt with
      | none => none
      | some field_mappings =>
        if field_mappings = [] then none
        else
          let relevant := field_mappings.any
            (fun fm => fm.translate && doc.changed.contains fm.field_name)
          if relevant then
            some { method := "versioned_translator.logic.translate_to_all_languages",
                   doctype := doc.doctype, docname := doc.name,
                   queue := "long", timeout := 600 }
          else none
    else none

/-! ## Concrete instances used by witnesses and counterexamples -/

/-- The design document's end-to-end scenario environment, parametrised
by the FR outcome: the provider returns `"Hello"` for target `EN`. -/
def exEnvFr (fr : Except PyExc HttpResponse) : Env :=
  { post := fun req =>
      if req.target_lang = "EN" then
        .ok { status_code := 200, text := "", body := .translations [some "Hello"] }
      else fr,
    logError := fun _ => .ok (),
    nowStr := "20240101100000", nowTime := 7 }

/-- The scenario environment proper: a transport failure for FR. -/
def exEnv : Env := exEnvFr (.error (.requestException "Connection timed out"))

/-- Like `exEnv`, except `frappe.log_error` itself raises while logging
the FR transport failure — the only way the source's per-language
`except` branch (which records a Failed status) can run. -/
def exEnvLogFail : Env :=
  { post := exEnv.post,
    logError := fun m =>
      if m = "DeepL API Request Error: Connection timed out" then
        .error (.other "log table unavailable")
      else .ok (),
    nowStr := "20240101100000", nowTime := 7 }

/-- Scenario settings. -/
def exSettings : Settings :=
  { api_key := "K", enable_auto_translation := true, auto_translate_on_update := true,
    default_source_language := "de", default_target_languages := "EN,FR" }

/-- Scenario document `Article/A1`. -/
def exDoc : Doc :=
  { doctype := "Article", name := "A1", modified := some "2024-01-01T10:00:00",
    fields := [("title", "Hallo")], changed := ["title"] }

/-- `exDoc` one second later. -/
def exDoc2 : Doc := { exDoc with modified := some "2024-01-01T10:00:01" }

/-- Scenario Translation Map: `title` is translatable. -/
def exMap : List FieldMapping := [{ field_name := "title", translate := true }]

/-- The scenario's version id:
`"A1_" ++ md5("Article_A1_2024-01-01T10:00:00")[:12]`. -/
def exVid : String := "A1_77d873e74084"

/-- The store row the scenario produces for EN. -/
def enRow : StoreRow :=
  { parent_doctype := "Article", parent_name := "A1", version_id := exVid,
    language := "en", translated_content := "\x7b\"title\": \"Hello\"\x7d",
    translation_status := "Completed", edit_mode := false, last_translated := some 7 }

/-- The DeepL request the scenario sends for EN. -/
def reqEN : DeepLRequest :=
  { text := "Hallo", source_lang := "DE", target_lang := "EN",
    auth := "DeepL-Auth-Key K" }

/-- The Failed row `exEnvLogFail` produces for FR (upper-cased key). -/
def frFailedRow : StoreRow :=
  { parent_doctype := "Article", parent_name := "A1", version_id := exVid,
    language := "FR", translated_content := "\x7b\x7d",
    translation_status := "Failed", edit_mode := false, last_translated := none }

/-- A pre-existing store row with the manual-override flag set. -/
def exRowDe : StoreRow :=
  { parent_doctype := "Article", parent_name := "A1", version_id := "v1",
    language := "de", translated_content := "\x7b\"title\": \"Hallo\"\x7d",
    translation_status := "Completed", edit_mode := true, last_translated := some 3 }

/-- First document of the truncated-MD5 collision pair. -/
def docColl1 : Doc :=
  { doctype := "Article", name := "A1", modified := some "2024-01-01 10:00:02.828906",
    fields := [("title", "Hallo")], changed := [] }

/-- Second document of the collision pair: same doctype and name, a
different modified timestamp, yet the same truncated hash. -/
def docColl2 : Doc := { docColl1 with modified := some "2024-01-01 10:00:10.469736" }

/-- A document without a `modified` attribute. -/
def docNoMod : Doc :=
  { doctype := "Article", name := "A1", modified := none,
    fields := [("title", "Hallo")], changed := [] }

/-- Field-extractor example document (both fields set). -/
def exDocFields : Doc :=
  { doctype := "Article", name := "A1", modified := some "2024-01-01T10:00:00",
    fields := [("title", "Der Titel"), ("internal_id", "X42")], changed := [] }

/-- Field-extractor example map: `title` translatable, `internal_id`
not. -/
def exMapFields : List FieldMapping :=
  [{ field_name := "title", translate := true },
   { field_name := "internal_id", translate := false }]

/-! ## Supporting lemmas: strings and characters -/

set_option maxRecDepth 200000

theorem string_append_left_cancel {a b c : String} (h : a ++ b = a ++ c) : b = c := by
  apply String.ext
  have hd := congrArg String.data h
  rw [String.data_append, String.data_append] at hd
  exact List.append_cancel_left hd

theorem toNat_charOfNat {n : Nat} (h : n < 55296) : (Char.ofNat n).toNat = n := by
  unfold Char.ofNat
  rw [dif_pos (Or.inl h)]
  simp [Char.ofNatAux, Char.toNat, UInt32.toNat, Nat.toUInt32, UInt32.ofNatCore]

theorem pyUpperChar_of_not_lower {c : Char} (h : ¬(97 ≤ c.toNat ∧ c.toNat ≤ 122)) :
    pyUpperChar c = c := by
  unfold pyUpperChar
  rw [if_neg h]

theorem pyUpperChar_toNat_of_lower {c : Char} (h : 97 ≤ c.toNat ∧ c.toNat ≤ 122) :
    (pyUpperChar c).toNat = c.toNat - 32 := by
  unfold pyUpperChar
  rw [if_pos h]
  exact toNat_charOfNat (by omega)

theorem pyLowerChar_of_not_upper {c : Char} (h : ¬(65 ≤ c.toNat ∧ c.toNat ≤ 90)) :
    pyLowerChar c = c := by
  unfold pyLowerChar
  rw [if_neg h]

theorem pyUpperChar_idem (c : Char) : pyUpperChar (pyUpperChar c) = pyUpperChar c := by
  by_cases h : 97 ≤ c.toNat ∧ c.toNat ≤ 122
  · have ht := pyUpperChar_toNat_of_lower h
    exact pyUpperChar_of_not_lower (by rw [ht]; omega)
  · rw [pyUpperChar_of_not_lower h, pyUpperChar_of_not_lower h]

theorem pyLowerChar_pyUpperChar (c : Char) :
    pyLowerChar (pyUpperChar c) = pyLowerChar c := by
  by_cases h : 97 ≤ c.toNat ∧ c.toNat ≤ 122
  · have ht := pyUpperChar_toNat_of_lower h
    unfold pyLowerChar
    rw [if_pos (by rw [ht]; omega), if_neg (by omega), ht]
    have h32 : c.toNat - 32 + 32 = c.toNat := by omega
    rw [h32, Char.ofNat_toNat]
  · rw [pyUpperChar_of_not_lower h]

theorem pyLowerChar_idem (c : Char) : pyLowerChar (pyLowerChar c) = pyLowerChar c := by
  by_cases h : 65 ≤ c.toNat ∧ c.toNat ≤ 90
  · have ht : (pyLowerChar c).toNat = c.toNat + 32 := by
      unfold pyLowerChar
      rw [if_pos h]
      exact toNat_charOfNat (by omega)
    exact pyLowerChar_of_not_upper (by rw [ht]; omega)
  · rw [pyLowerChar_of_not_upper h, pyLowerChar_of_not_upper h]

theorem pyUpper_pyUpper (s : String) : pyUpper (pyUpper s) = pyUpper s := by
  show String.mk ((s.data.map pyUpperChar).map pyUpperChar) = String.mk (s.data.map pyUpperChar)
  rw [List.map_map]
  have he : pyUpperChar ∘ pyUpperChar = pyUpperChar := funext pyUpperChar_idem
  rw [he]

theorem pyLower_pyUpper (s : String) : pyLower (pyUpper s) = pyLower s := by
  show String.mk ((s.data.map pyUpperChar).map pyLowerChar) = String.mk (s.data.map pyLowerChar)
  rw [List.map_map]
  have he : pyLowerChar ∘ pyUpperChar = pyLowerChar := funext pyLowerChar_pyUpperChar
  rw [he]

theorem pyLower_pyLower (s : String) : pyLower (pyLower s) = pyLower s := by
  show String.mk ((s.data.map pyLowerChar).map pyLowerChar) = String.mk (s.data.map pyLowerChar)
  rw [List.map_map]
  have he : pyLowerChar ∘ pyLowerChar = pyLowerChar := funext pyLowerChar_idem
  rw [he]

/-! ## Supporting lemmas: hex digests -/

theorem length_hexOfBytes (l : List Nat) : (hexOfBytes l).length = 2 * l.length := by
  induction l with
  | nil => rfl
  | cons b rest ih =>
    show (hexOfBytes rest).length + 1 + 1 = 2 * (rest.length + 1)
    omega

theorem length_md5DigestBytes (msg : List Nat) : (md5DigestBytes msg).length = 16 := by
  simp [md5DigestBytes, wordBytesLE]

theorem length_md5HexChars (s : String) : (md5HexChars s).length = 32 := by
  unfold md5HexChars
  rw [length_hexOfBytes, length_md5DigestBytes]

theorem md5Hex12_length (s : String) : (md5Hex12 s).length = 12 := by
  show ((md5HexChars s).take 12).length = 12
  rw [List.length_take, length_md5HexChars]
  omega

theorem hexDigit_mem (n : Nat) : hexDigit n ∈ hexDigits := by
  by_cases h : n < 16
  · exact List.mem_map.mpr ⟨n, List.mem_range.mpr h, rfl⟩
  · have h0 : hexDigit n = hexDigit 0 := by
      unfold hexDigit
      rw [if_neg (by omega), if_neg (by omega)]
      decide
    rw [h0]
    exact List.mem_map.mpr ⟨0, List.mem_range.mpr (by omega), rfl⟩

theorem mem_hexOfBytes {c : Char} {l : List Nat} (h : c ∈ hexOfBytes l) : c ∈ hexDigits := by
  induction l with
  | nil => simp [hexOfBytes] at h
  | cons b rest ih =>
    rcases List.mem_cons.mp h with h1 | h2
    · rw [h1]; exact hexDigit_mem _
    · rcases List.mem_cons.mp h2 with h3 | h4
      · rw [h3]; exact hexDigit_mem _
      · exact ih h4

theorem md5Hex12_chars {s : String} {c : Char} (h : c ∈ (md5Hex12 s).data) :
    c ∈ hexDigits := by
  have h' : c ∈ (md5HexChars s).take 12 := h
  exact mem_hexOfBytes (List.take_subset _ _ h')

/-! ## Supporting lemmas: the store writers -/

theorem rowMatches_iff {dt dn v lg : String} {r : StoreRow} :
    rowMatches dt dn v lg r = true ↔
      (r.parent_doctype = dt ∧ r.parent_name = dn ∧ r.version_id = v ∧ r.language = lg) := by
  simp [rowMatches, Bool.and_eq_true, and_assoc]

theorem updateFirst_split {p : StoreRow → Bool} {l : Store} {r : StoreRow}
    (h : l.find? p = some r) (f : StoreRow → StoreRow) :
    ∃ pre post, l = pre ++ r :: post ∧ (∀ x ∈ pre, p x = false) ∧
      updateFirst p f l = pre ++ f r :: post := by
  induction l with
  | nil => simp [List.find?] at h
  | cons a rest ih =>
    by_cases hp : p a
    · rw [List.find?_cons_of_pos _ hp] at h
      obtain rfl : a = r := by injection h
      refine ⟨[], rest, rfl, by simp, ?_⟩
      show (if p a then f a :: rest else a :: updateFirst p f rest) = [] ++ f a :: rest
      rw [if_pos hp]
      rfl
    · rw [List.find?_cons_of_neg _ hp] at h
      obtain ⟨pre, post, hl, hpre, hu⟩ := ih h
      refine ⟨a :: pre, post, by rw [hl]; rfl, ?_, ?_⟩
      · intro x hx
        rcases List.mem_cons.mp hx with rfl | hx'
        · exact Bool.not_eq_true _ |>.mp hp
        · exact hpre x hx'
      · show (if p a then f a :: rest else a :: updateFirst p f rest) = (a :: pre) ++ f r :: post
        rw [if_neg hp, hu]
        rfl

theorem mem_updateFirst {p : StoreRow → Bool} {f : StoreRow → StoreRow} {l : Store}
    {x : StoreRow} (h : x ∈ updateFirst p f l) :
    x ∈ l ∨ ∃ y ∈ l, p y = true ∧ x = f y := by
  induction l with
  | nil => simp [updateFirst] at h
  | cons a rest ih =>
    unfold updateFirst at h
    by_cases hp : p a
    · rw [if_pos hp] at h
      rcases List.mem_cons.mp h with rfl | h'
      · exact Or.inr ⟨a, List.mem_cons_self a rest, hp, rfl⟩
      · exact Or.inl (List.mem_cons_of_mem _ h')
    · rw [if_neg hp] at h
      rcases List.mem_cons.mp h with rfl | h'
      · exact Or.inl (List.mem_cons_self x rest)
      · rcases ih h' with h1 | ⟨y, hy, hpy, hxy⟩
        · exact Or.inl (List.mem_cons_of_mem _ h1)
        · exact Or.inr ⟨y, List.mem_cons_of_mem _ hy, hpy, hxy⟩

theorem mem_updateFirst_of_neg {p : StoreRow → Bool} {f : StoreRow → StoreRow} {l : Store}
    {x : StoreRow} (hx : x ∈ l) (h : p x = false) : x ∈ updateFirst p f l := by
  induction l with
  | nil => simp at hx
  | cons a rest ih =>
    unfold updateFirst
    rcases List.mem_cons.mp hx with rfl | hx'
    · rw [if_neg (by rw [h]; exact Bool.false_ne_true)]
      exact List.mem_cons_self x _
    · by_cases hp : p a
      · rw [if_pos hp]
        exact List.mem_cons_of_mem _ hx'
      · rw [if_neg hp]
        exact List.mem_cons_of_mem _ (ih hx')

theorem map_updateFirst {α : Type} {p : StoreRow → Bool} {f : StoreRow → StoreRow}
    (g : StoreRow → α) (hg : ∀ x, g (f x) = g x) (l : Store) :
    (updateFirst p f l).map g = l.map g := by
  induction l with
  | nil => rfl
  | cons a rest ih =>
    unfold updateFirst
    by_cases hp : p a
    · rw [if_pos hp]
      show g (f a) :: rest.map g = g a :: rest.map g
      rw [hg]
    · rw [if_neg hp]
      show g a :: (updateFirst p f rest).map g = g a :: rest.map g
      rw [ih]

theorem updateFirst_eq_self {p : StoreRow → Bool} {f : StoreRow → StoreRow} {l : Store}
    {r : StoreRow} (h : l.find? p = some r) (hf : f r = r) : updateFirst p f l = l := by
  induction l with
  | nil => rfl
  | cons a rest ih =>
    unfold updateFirst
    by_cases hp : p a
    · rw [List.find?_cons_of_pos _ hp] at h
      obtain rfl : a = r := by injection h
      rw [if_pos hp, hf]
    · rw [List.find?_cons_of_neg _ hp] at h
      rw [if_neg hp, ih h]

theorem find?_updateFirst {p : StoreRow → Bool} {f : StoreRow → StoreRow}
    (hpf : ∀ x, p (f x) = p x) {l : Store} {r : StoreRow} (h : l.find? p = some r) :
    (updateFirst p f l).find? p = some (f r) := by
  induction l with
  | nil => simp [List.find?] at h
  | cons a rest ih =>
    unfold updateFirst
    by_cases hp : p a
    · rw [List.find?_cons_of_pos _ hp] at h
      obtain rfl : a = r := by injection h
      rw [if_pos hp]
      exact List.find?_cons_of_pos _ (by rw [hpf]; exact hp)
    · rw [List.find?_cons_of_neg _ hp] at h
      rw [if_neg hp]
      rw [List.find?_cons_of_neg _ hp]
      exact ih h

theorem filter_updateFirst_unique {p : StoreRow → Bool} {f : StoreRow → StoreRow}
    (hpf : ∀ x, p (f x) = p x) {l : Store} {r : StoreRow}
    (hlen : (l.filter p).length ≤ 1) (h : l.find? p = some r) :
    l.filter p = [r] ∧ (updateFirst p f l).filter p = [f r] := by
  induction l with
  | nil => simp [List.find?] at h
  | cons a rest ih =>
    by_cases hp : p a
    · rw [List.find?_cons_of_pos _ hp] at h
      obtain rfl : a = r := by injection h
      have hrest : rest.filter p = [] := by
        rw [List.filter_cons_of_pos hp] at hlen
        have : (rest.filter p).length = 0 := by
          simp only [List.length_cons] at hlen
          omega
        exact List.length_eq_zero.mp this
      constructor
      · rw [List.filter_cons_of_pos hp, hrest]
      · unfold updateFirst
        rw [if_pos hp, List.filter_cons_of_pos (by rw [hpf]; exact hp), hrest]
    · rw [List.find?_cons_of_neg _ hp] at h
      rw [List.filter_cons_of_neg hp] at hlen
      obtain ⟨h1, h2⟩ := ih hlen h
      constructor
      · rw [List.filter_cons_of_neg hp, h1]
      · unfold updateFirst
        rw [if_neg hp, List.filter_cons_of_neg hp, h2]

theorem filter_eq_nil_of_find?_none {p : StoreRow → Bool} {l : Store}
    (h : l.find? p = none) : l.filter p = [] := by
  rw [List.filter_eq_nil_iff]
  intro a ha
  exact List.find?_eq_none.mp h a ha

theorem mem_save_of_not_match {now : Nat} {dt dn v lg : String}
    {c : List (String × String)} {store : Store} {r : StoreRow} (hr : r ∈ store)
    (h : rowMatches dt dn v lg r = false) :
    r ∈ save_translation_to_store now dt dn v lg c store := by
  unfold save_translation_to_store
  split
  · exact mem_updateFirst_of_neg hr h
  · exact List.mem_append_left _ hr

theorem save_rows {now : Nat} {dt dn v lg : String} {c : List (String × String)}
    {store : Store} {r : StoreRow}
    (h : r ∈ save_translation_to_store now dt dn v lg c store) :
    r ∈ store ∨ (r.language = lg ∧ r.translation_status = "Completed") := by
  unfold save_translation_to_store at h
  split at h
  · rcases mem_updateFirst h with h1 | ⟨y, hy, hpy, rfl⟩
    · exact Or.inl h1
    · obtain ⟨-, -, -, h4⟩ := rowMatches_iff.mp hpy
      exact Or.inr ⟨h4, rfl⟩
  · rcases List.mem_append.mp h with h1 | h2
    · exact Or.inl h1
    · rw [List.mem_singleton] at h2
      subst h2
      exact Or.inr ⟨rfl, rfl⟩

theorem mem_update_status_of_not_match {dt dn v lg status : String}
    {store : Store} {r : StoreRow} (hr : r ∈ store)
    (h : rowMatches dt dn v lg r = false) :
    r ∈ update_translation_status dt dn v lg status store := by
  unfold update_translation_status
  split
  · exact mem_updateFirst_of_neg hr h
  · exact List.mem_append_left _ hr

theorem update_status_rows {dt dn v lg status : String} {store : Store} {r : StoreRow}
    (h : r ∈ update_translation_status dt dn v lg status store) :
    r ∈ store ∨ (r.language = lg ∧ r.translation_status = status) := by
  unfold update_translation_status at h
  split at h
  · rcases mem_updateFirst h with h1 | ⟨y, hy, hpy, rfl⟩
    · exact Or.inl h1
    · obtain ⟨-, -, -, h4⟩ := rowMatches_iff.mp hpy
      exact Or.inr ⟨h4, rfl⟩
  · rcases List.mem_append.mp h with h1 | h2
    · exact Or.inl h1
    · rw [List.mem_singleton] at h2
      subst h2
      exact Or.inr ⟨rfl, rfl⟩

theorem filter_save (now : Nat) (c : List (String × String))
    {dt dn v lg : String} {store : Store}
    (h : (store.filter (rowMatches dt dn v lg)).length ≤ 1) :
    ∃ em, (save_translation_to_store now dt dn v lg c store).filter
        (rowMatches dt dn v lg) =
      [{ parent_doctype := dt, parent_name := dn, version_id := v, language := lg,
         translated_content := jsonDumps c, translation_status := "Completed",
         edit_mode := em, last_translated := some now }] := by
  unfold save_translation_to_store
  split
  next r hr =>
    obtain ⟨h1, h2⟩ := filter_updateFirst_unique
      (p := rowMatches dt dn v lg)
      (f := fun x =>
        { x with translated_content := jsonDumps c,
                 translation_status := "Completed",
                 last_translated := some now })
      (fun x => rfl) h hr
    refine ⟨r.edit_mode, ?_⟩
    rw [h2]
    obtain ⟨e1, e2, e3, e4⟩ := rowMatches_iff.mp (List.find?_some hr)
    cases r
    simp_all
  next hr =>
    refine ⟨false, ?_⟩
    rw [List.filter_append, filter_eq_nil_of_find?_none hr]
    simp [rowMatches]

theorem save_of_found {now : Nat} {dt dn v lg : String} {c : List (String × String)}
    {store : Store} {r : StoreRow}
    (h : store.find? (rowMatches dt dn v lg) = some r) :
    save_translation_to_store now dt dn v lg c store =
      updateFirst (rowMatches dt dn v lg)
        (fun x =>
          { x with translated_content := jsonDumps c,
                   translation_status := "Completed",
                   last_translated := some now }) store := by
  unfold save_translation_to_store
  rw [h]

theorem save_of_not_found {now : Nat} {dt dn v lg : String} {c : List (String × String)}
    {store : Store}
    (h : store.find? (rowMatches dt dn v lg) = none) :
    save_translation_to_store now dt dn v lg c store =
      store ++
        [{ parent_doctype := dt, parent_name := dn, version_id := v, language := lg,
           translated_content := jsonDumps c, translation_status := "Completed",
           edit_mode := false, last_translated := some now }] := by
  unfold save_translation_to_store
  rw [h]

theorem save_idem (now : Nat) (dt dn v lg : String) (c : List (String × String))
    (store : Store) :
    save_translation_to_store now dt dn v lg c
        (save_translation_to_store now dt dn v lg c store) =
      save_translation_to_store now dt dn v lg c store := by
  cases hf : store.find? (rowMatches dt dn v lg) with
  | some r =>
    have h2 : (save_translation_to_store now dt dn v lg c store).find?
        (rowMatches dt dn v lg) =
        some ({ r with translated_content := jsonDumps c,
                       translation_status := "Completed",
                       last_translated := some now }) := by
      rw [save_of_found hf]
      exact find?_updateFirst
        (p := rowMatches dt dn v lg)
        (f := fun x =>
          { x with translated_content := jsonDumps c,
                   translation_status := "Completed",
                   last_translated := some now })
        (fun x => rfl) hf
    rw [save_of_found h2]
    exact updateFirst_eq_self h2 rfl
  | none =>
    have h2 : (save_translation_to_store now dt dn v lg c store).find?
        (rowMatches dt dn v lg) =
        some { parent_doctype := dt, parent_name := dn, version_id := v, language := lg,
               translated_content := jsonDumps c, translation_status := "Completed",
               edit_mode := false, last_translated := some now } := by
      rw [save_of_not_found hf, List.find?_append, hf, Option.none_or]
      exact List.find?_cons_of_pos _ (rowMatches_iff.mpr ⟨rfl, rfl, rfl, rfl⟩)
    rw [save_of_found h2]
    exact updateFirst_eq_self h2 rfl

/-! ## Claim theorems -/

/-- C2: calling `save_translation_to_store` (upsert) and then upsert again
with the same composite key leaves exactly one store row for that key,
holding the latest content (and Completed status, latest timestamp); and
a repeated call with identical arguments leaves the store state unchanged
(idempotence), for every starting store. -/
theorem save_translation_upsert_spec (store : Store) (now1 now2 : Nat)
    (dt dn v lg : String) (c1 c2 : List (String × String))
    (h : (store.filter (rowMatches dt dn v lg)).length ≤ 1) :
    ((save_translation_to_store now2 dt dn v lg c2
        (save_translation_to_store now1 dt dn v lg c1 store)).filter
          (rowMatches dt dn v lg)).map
        (fun r => (r.translated_content, r.translation_status, r.last_translated)) =
      [(jsonDumps c2, "Completed", some now2)]
    ∧ save_translation_to_store now1 dt dn v lg c1
        (save_translation_to_store now1 dt dn v lg c1 store) =
      save_translation_to_store now1 dt dn v lg c1 store := by
  constructor
  · obtain ⟨em1, h1⟩ := filter_save now1 c1 h
    have hlen1 : ((save_translation_to_store now1 dt dn v lg c1 store).filter
        (rowMatches dt dn v lg)).length ≤ 1 := by
      rw [h1]
      exact Nat.le_refl 1
    obtain ⟨em2, h2⟩ := filter_save now2 c2 hlen1
    rw [h2]
    rfl
  · exact save_idem now1 dt dn v lg c1 store

/-- C2 witness: two upserts on an initially empty store at a concrete
key, with different contents. -/
theorem save_translation_upsert_spec_witness :
    ((save_translation_to_store 8 "Article" "A1" "v1" "de" [("title", "Neu")]
        (save_translation_to_store 7 "Article" "A1" "v1" "de" [("title", "Alt")]
          [])).filter (rowMatches "Article" "A1" "v1" "de")).map
        (fun r => (r.translated_content, r.translation_status, r.last_translated)) =
      [(jsonDumps [("title", "Neu")], "Completed", some 8)]
    ∧ save_translation_to_store 7 "Article" "A1" "v1" "de" [("title", "Alt")]
        (save_translation_to_store 7 "Article" "A1" "v1" "de" [("title", "Alt")] []) =
      save_translation_to_store 7 "Article" "A1" "v1" "de" [("title", "Alt")] [] :=
  save_translation_upsert_spec [] 7 8 "Article" "A1" "v1" "de"
    [("title", "Alt")] [("title", "Neu")] (by decide)

/-- C5: `update_translation_status` (mark_status) on a non-existent key
inserts exactly one row with empty content `"{}"` and the given status;
on an existing key it rewrites only `translation_status` of the first
matching row, leaving every other field of that row and every other row
unchanged. -/
theorem update_translation_status_spec (store : Store) (dt dn v lg status : String) :
    (store.find? (rowMatches dt dn v lg) = none →
      update_translation_status dt dn v lg status store =
        store ++
          [{ parent_doctype := dt, parent_name := dn, version_id := v, language := lg,
             translated_content := "\x7b\x7d", translation_status := status,
             edit_mode := false, last_translated := none }])
    ∧ (∀ r, store.find? (rowMatches dt dn v lg) = some r →
        ∃ pre post, store = pre ++ r :: post ∧
          (∀ x ∈ pre, rowMatches dt dn v lg x = false) ∧
          update_translation_status dt dn v lg status store =
            pre ++ { r with translation_status := status } :: post) := by
  constructor
  · intro h
    unfold update_translation_status
    rw [h]
  · intro r h
    obtain ⟨pre, post, h1, h2, h3⟩ :=
      updateFirst_split h (fun x => { x with translation_status := status })
    refine ⟨pre, post, h1, h2, ?_⟩
    unfold update_translation_status
    rw [h]
    exact h3

/-- C5 witness: the insert branch on an empty store and the update branch
on a store holding one matching row with the manual-override flag set. -/
theorem update_translation_status_spec_witness :
    (update_translation_status "Article" "A1" "v1" "de" "Failed" [] =
      [] ++
        [{ parent_doctype := "Article", parent_name := "A1", version_id := "v1",
           language := "de", translated_content := "\x7b\x7d",
           translation_status := "Failed", edit_mode := false,
           last_translated := none }])
    ∧ ∃ pre post, ([exRowDe] : Store) = pre ++ exRowDe :: post ∧
        (∀ x ∈ pre, rowMatches "Article" "A1" "v1" "de" x = false) ∧
        update_translation_status "Article" "A1" "v1" "de" "Failed" [exRowDe] =
          pre ++ { exRowDe with translation_status := "Failed" } :: post :=
  ⟨(update_translation_status_spec [] "Article" "A1" "v1" "de" "Failed").1 rfl,
   (update_translation_status_spec [exRowDe] "Article" "A1" "v1" "de" "Failed").2
     exRowDe (by decide)⟩

/-- C9: both store writers preserve every existing row's `edit_mode`
positionally (updates happen in place and never touch that field), and
any row they insert carries `edit_mode = false`. -/
theorem writers_preserve_edit_mode (now : Nat) (dt dn v lg status : String)
    (c : List (String × String)) (store : Store) :
    ((save_translation_to_store now dt dn v lg c store).map StoreRow.edit_mode =
        store.map StoreRow.edit_mode ∨
      (save_translation_to_store now dt dn v lg c store).map StoreRow.edit_mode =
        store.map StoreRow.edit_mode ++ [false])
    ∧ ((update_translation_status dt dn v lg status store).map StoreRow.edit_mode =
        store.map StoreRow.edit_mode ∨
      (update_translation_status dt dn v lg status store).map StoreRow.edit_mode =
        store.map StoreRow.edit_mode ++ [false]) := by
  constructor
  · unfold save_translation_to_store
    split
    · refine Or.inl (map_updateFirst StoreRow.edit_mode ?_ store)
      intro x
      rfl
    · right
      rw [List.map_append]
      rfl
  · unfold update_translation_status
    split
    · refine Or.inl (map_updateFirst StoreRow.edit_mode ?_ store)
      intro x
      rfl
    · right
      rw [List.map_append]
      rfl

theorem get_version_id_of_modified {now : String} {d : Doc} {m : String}
    (h : d.modified = some m) (hne : m ≠ "") :
    get_version_id now d =
      d.name ++ "_" ++ md5Hex12 (d.doctype ++ "_" ++ d.name ++ "_" ++ m) := by
  unfold get_version_id
  simp only [h]
  rw [if_neg hne]

theorem get_version_id_of_no_modified {now : String} {d : Doc}
    (h : d.modified = none) :
    get_version_id now d = d.name ++ "_" ++ now := by
  unfold get_version_id
  simp only [h]

theorem get_version_id_of_empty_modified {now : String} {d : Doc}
    (h : d.modified = some "") :
    get_version_id now d = d.name ++ "_" ++ now := by
  unfold get_version_id
  simp [h]

/-- C3 counterexample: two documents identical except for their modified
timestamps whose 12-hex-character truncated MD5 digests collide, so
`get_version_id` returns the same id for both — "any change to modified
changes the id" fails on this pair. -/
theorem get_version_id_modified_collision :
    docColl1.doctype = docColl2.doctype ∧ docColl1.name = docColl2.name ∧
    docColl1.fields = docColl2.fields ∧ docColl1.modified ≠ docColl2.modified ∧
    get_version_id "20260101000000" docColl1 = get_version_id "20260101000000" docColl2 := by
  refine ⟨rfl, rfl, rfl, by decide, by decide⟩

/-- C3 (amended): `get_version_id` is a function of
`(doctype, name, modified)` alone when modified is present and truthy —
identical such triples give identical ids across calls, whatever the
other attributes or the wall clock; and two documents differing only in
`modified` receive different ids whenever the 12-hex-character truncated
MD5 digests of their version strings differ (truncated digests can
collide, as the counterexample shows). -/
theorem get_version_id_det_and_hash_sensitive :
    (∀ (now now' dt n m : String) (f1 f2 : List (String × String))
        (g1 g2 : List String), m ≠ "" →
      get_version_id now ⟨dt, n, some m, f1, g1⟩ =
        get_version_id now' ⟨dt, n, some m, f2, g2⟩)
    ∧ (∀ (now dt n m1 m2 : String) (f1 f2 : List (String × String))
        (g1 g2 : List String), m1 ≠ "" → m2 ≠ "" →
      md5Hex12 (dt ++ "_" ++ n ++ "_" ++ m1) ≠ md5Hex12 (dt ++ "_" ++ n ++ "_" ++ m2) →
      get_version_id now ⟨dt, n, some m1, f1, g1⟩ ≠
        get_version_id now ⟨dt, n, some m2, f2, g2⟩) := by
  constructor
  · intro now now' dt n m f1 f2 g1 g2 hne
    rw [get_version_id_of_modified rfl hne, get_version_id_of_modified rfl hne]
  · intro now dt n m1 m2 f1 f2 g1 g2 hne1 hne2 hmd heq
    have e1 : get_version_id now ⟨dt, n, some m1, f1, g1⟩ =
        n ++ "_" ++ md5Hex12 (dt ++ "_" ++ n ++ "_" ++ m1) :=
      get_version_id_of_modified rfl hne1
    have e2 : get_version_id now ⟨dt, n, some m2, f2, g2⟩ =
        n ++ "_" ++ md5Hex12 (dt ++ "_" ++ n ++ "_" ++ m2) :=
      get_version_id_of_modified rfl hne2
    rw [e1, e2] at heq
    exact hmd (string_append_left_cancel heq)

/-- C3 witness: determinism across two different wall clocks, and
sensitivity for one concrete second-apart pair whose truncated digests
differ. -/
theorem get_version_id_det_and_hash_sensitive_witness :
    get_version_id "20240101100000" exDoc = get_version_id "20990101000000" exDoc
    ∧ get_version_id "20240101100000" exDoc ≠ get_version_id "20240101100000" exDoc2 :=
  ⟨get_version_id_det_and_hash_sensitive.1 "20240101100000" "20990101000000"
      "Article" "A1" "2024-01-01T10:00:00" [("title", "Hallo")] [("title", "Hallo")]
      ["title"] ["title"] (by decide),
   get_version_id_det_and_hash_sensitive.2 "20240101100000" "Article" "A1"
      "2024-01-01T10:00:00" "2024-01-01T10:00:01" [("title", "Hallo")]
      [("title", "Hallo")] ["title"] ["title"] (by decide) (by decide) (by decide)⟩

/-- C4 counterexample: for a document without `modified`, the id is
`name ++ "_" ++ <wall clock formatted "%Y%m%d%H%M%S">` — a 14-digit
suffix, not a 12-hex-character hash of anything. -/
theorem get_version_id_fallback_not_hashed :
    get_version_id "20240101100000" docNoMod = "A1_20240101100000" ∧
    ¬ ∃ h12 : String, get_version_id "20240101100000" docNoMod = "A1_" ++ h12 ∧
        h12.length = 12 := by
  constructor
  · decide
  · rintro ⟨h12, he, hl⟩
    have h0 : get_version_id "20240101100000" docNoMod =
        ("A1_" : String) ++ "20240101100000" := by decide
    have h2 := string_append_left_cancel (h0.symm.trans he)
    rw [← h2] at hl
    exact absurd hl (by decide)

/-- C4 (amended): with a truthy `modified`, the id is
`<name>_<12-hex-char truncated MD5 of doctype_name_modified>`; with
`modified` absent or empty, the id is `<name>_<current wall-clock time>`
with no hash applied. -/
theorem get_version_id_format :
    (∀ (now : String) (d : Doc) (m : String), d.modified = some m → m ≠ "" →
      get_version_id now d =
        d.name ++ "_" ++ md5Hex12 (d.doctype ++ "_" ++ d.name ++ "_" ++ m) ∧
      (md5Hex12 (d.doctype ++ "_" ++ d.name ++ "_" ++ m)).length = 12 ∧
      ∀ c ∈ (md5Hex12 (d.doctype ++ "_" ++ d.name ++ "_" ++ m)).data, c ∈ hexDigits)
    ∧ (∀ (now : String) (d : Doc), d.modified = none →
        get_version_id now d = d.name ++ "_" ++ now)
    ∧ (∀ (now : String) (d : Doc), d.modified = some "" →
        get_version_id now d = d.name ++ "_" ++ now) := by
  refine ⟨?_, ?_, ?_⟩
  · intro now d m hm hne
    exact ⟨get_version_id_of_modified hm hne, md5Hex12_length _,
      fun c hc => md5Hex12_chars hc⟩
  · intro now d h
    exact get_version_id_of_no_modified h
  · intro now d h
    exact get_version_id_of_empty_modified h

/-- C4 witness: all three branches at concrete documents. -/
theorem get_version_id_format_witness :
    (get_version_id "20240101100000" exDoc =
        exDoc.name ++ "_" ++
          md5Hex12 (exDoc.doctype ++ "_" ++ exDoc.name ++ "_" ++ "2024-01-01T10:00:00") ∧
      (md5Hex12 (exDoc.doctype ++ "_" ++ exDoc.name ++ "_" ++ "2024-01-01T10:00:00")).length = 12 ∧
      ∀ c ∈ (md5Hex12 (exDoc.doctype ++ "_" ++ exDoc.name ++ "_" ++ "2024-01-01T10:00:00")).data,
        c ∈ hexDigits)
    ∧ get_version_id "20240101100000" docNoMod = docNoMod.name ++ "_" ++ "20240101100000" :=
  ⟨get_version_id_format.1 "20240101100000" exDoc "2024-01-01T10:00:00" rfl (by decide),
   get_version_id_format.2.1 "20240101100000" docNoMod rfl⟩

theorem mem_dictInsert {k v : String} {acc : List (String × String)} {q : String × String}
    (h : q ∈ dictInsert k v acc) : q ∈ acc ∨ q = (k, v) := by
  induction acc with
  | nil => simpa [dictInsert] using h
  | cons p rest ih =>
    obtain ⟨k', v'⟩ := p
    unfold dictInsert at h
    by_cases hk : k' = k
    · rw [if_pos hk] at h
      rcases List.mem_cons.mp h with rfl | h2
      · exact Or.inr rfl
      · exact Or.inl (List.mem_cons_of_mem _ h2)
    · rw [if_neg hk] at h
      rcases List.mem_cons.mp h with rfl | h2
      · exact Or.inl (List.mem_cons_self _ _)
      · rcases ih h2 with h3 | h3
        · exact Or.inl (List.mem_cons_of_mem _ h3)
        · exact Or.inr h3

theorem mem_dictInsert_iff {k v a b : String} {acc : List (String × String)}
    (huniq : ∀ b0, (k, b0) ∈ acc → b0 = v) :
    (a, b) ∈ dictInsert k v acc ↔ ((a, b) ∈ acc ∨ (a = k ∧ b = v)) := by
  induction acc with
  | nil => simp [dictInsert]
  | cons p rest ih =>
    obtain ⟨k', v'⟩ := p
    unfold dictInsert
    by_cases hk : k' = k
    · subst hk
      have hv : v' = v := huniq v' (List.mem_cons_self _ _)
      subst hv
      rw [if_pos rfl]
      simp only [List.mem_cons, Prod.mk.injEq]
      tauto
    · rw [if_neg hk]
      have huniq' : ∀ b0, (k, b0) ∈ rest → b0 = v := fun b0 hb =>
        huniq b0 (List.mem_cons_of_mem _ hb)
      rw [List.mem_cons, List.mem_cons, ih huniq']
      tauto

theorem extract_fields_go_mem (doc : Doc) (k v : String) :
    ∀ (fms : List FieldMapping) (acc : List (String × String)),
      (∀ q ∈ acc, doc.fields.lookup q.1 = some q.2 ∧ q.2 ≠ "") →
      ((k, v) ∈ extract_fields_go doc acc fms ↔
        ((k, v) ∈ acc ∨
          ((∃ fm ∈ fms, fm.translate = true ∧ fm.field_name = k) ∧
            doc.fields.lookup k = some v ∧ v ≠ ""))) := by
  intro fms
  induction fms with
  | nil =>
    intro acc hinv
    simp [extract_fields_go]
  | cons fm rest ih =>
    intro acc hinv
    unfold extract_fields_go
    by_cases ht : fm.translate = true
    · rw [if_pos ht]
      cases hl : doc.fields.lookup fm.field_name with
      | none =>
        rw [ih acc hinv]
        constructor
        · rintro (h | ⟨⟨fm', hfm', ht', hn'⟩, hlk, hv⟩)
          · exact Or.inl h
          · exact Or.inr ⟨⟨fm', List.mem_cons_of_mem _ hfm', ht', hn'⟩, hlk, hv⟩
        · rintro (h | ⟨⟨fm', hfm', ht', hn'⟩, hlk, hv⟩)
          · exact Or.inl h
          · rcases List.mem_cons.mp hfm' with rfl | hfm''
            · rw [← hn', hl] at hlk
              cases hlk
            · exact Or.inr ⟨⟨fm', hfm'', ht', hn'⟩, hlk, hv⟩
      | some v0 =>
        show ((k, v) ∈
            if v0 = "" then extract_fields_go doc acc rest
            else extract_fields_go doc (dictInsert fm.field_name v0 acc) rest) ↔ _
        by_cases hv0 : v0 = ""
        · rw [if_pos hv0]
          rw [ih acc hinv]
          constructor
          · rintro (h | ⟨⟨fm', hfm', ht', hn'⟩, hlk, hv⟩)
            · exact Or.inl h
            · exact Or.inr ⟨⟨fm', List.mem_cons_of_mem _ hfm', ht', hn'⟩, hlk, hv⟩
          · rintro (h | ⟨⟨fm', hfm', ht', hn'⟩, hlk, hv⟩)
            · exact Or.inl h
            · rcases List.mem_cons.mp hfm' with rfl | hfm''
              · rw [← hn', hl] at hlk
                injection hlk with hlk'
                exact absurd (hlk' ▸ hv0) hv
              · exact Or.inr ⟨⟨fm', hfm'', ht', hn'⟩, hlk, hv⟩
        · rw [if_neg hv0]
          have hinv' : ∀ q ∈ dictInsert fm.field_name v0 acc,
              doc.fields.lookup q.1 = some q.2 ∧ q.2 ≠ "" := by
            intro q hq
            rcases mem_dictInsert hq with h1 | rfl
            · exact hinv q h1
            · exact ⟨hl, hv0⟩
          have huniq : ∀ b0, (fm.field_name, b0) ∈ acc → b0 = v0 := by
            intro b0 hb
            have := (hinv _ hb).1
            rw [hl] at this
            injection this with h'
            exact h'.symm
          rw [ih _ hinv', mem_dictInsert_iff huniq]
          constructor
          · rintro ((h | ⟨rfl, rfl⟩) | ⟨⟨fm', hfm', ht', hn'⟩, hlk, hv⟩)
            · exact Or.inl h
            · exact Or.inr ⟨⟨fm, List.mem_cons_self _ _, ht, rfl⟩, hl, hv0⟩
            · exact Or.inr ⟨⟨fm', List.mem_cons_of_mem _ hfm', ht', hn'⟩, hlk, hv⟩
          · rintro (h | ⟨⟨fm', hfm', ht', hn'⟩, hlk, hv⟩)
            · exact Or.inl (Or.inl h)
            · rcases List.mem_cons.mp hfm' with rfl | hfm''
              · rw [← hn', hl] at hlk
                injection hlk with hlk'
                exact Or.inl (Or.inr ⟨hn'.symm, hlk'.symm⟩)
              · exact Or.inr ⟨⟨fm', hfm'', ht', hn'⟩, hlk, hv⟩
    · rw [if_neg ht]
      rw [ih acc hinv]
      constructor
      · rintro (h | ⟨⟨fm', hfm', ht', hn'⟩, hlk, hv⟩)
        · exact Or.inl h
        · exact Or.inr ⟨⟨fm', List.mem_cons_of_mem _ hfm', ht', hn'⟩, hlk, hv⟩
      · rintro (h | ⟨⟨fm', hfm', ht', hn'⟩, hlk, hv⟩)
        · exact Or.inl h
        · rcases List.mem_cons.mp hfm' with rfl | hfm''
          · exact absurd ht' ht
          · exact Or.inr ⟨⟨fm', hfm'', ht', hn'⟩, hlk, hv⟩

/-- C6: the extracted field set contains a pair `(k, v)` exactly when some
field mapping with `translate = true` names `k`, the document has
attribute `k` with value `v`, and `v` is truthy (non-empty); mappings
with `translate = false` never contribute. -/
theorem extract_fields_spec (doc : Doc) (fms : List FieldMapping) (k v : String) :
    (k, v) ∈ extract_fields doc fms ↔
      ((∃ fm ∈ fms, fm.translate = true ∧ fm.field_name = k) ∧
        doc.fields.lookup k = some v ∧ v ≠ "") := by
  unfold extract_fields
  rw [extract_fields_go_mem doc k v fms [] (by simp)]
  simp

/-- C6 witness: the design document's example — `title` mapped with
translate on, `internal_id` mapped with translate off, both set on the
document. -/
theorem extract_fields_spec_witness :
    ("title", "Der Titel") ∈ extract_fields exDocFields exMapFields ∧
    ("internal_id", "X42") ∉ extract_fields exDocFields exMapFields :=
  ⟨(extract_fields_spec exDocFields exMapFields "title" "Der Titel").mpr
      ⟨⟨{ field_name := "title", translate := true }, by decide, rfl, rfl⟩,
        by decide, by decide⟩,
   fun hmem => by
     obtain ⟨⟨fm, hfm, ht, hn⟩, -, -⟩ :=
       (extract_fields_spec exDocFields exMapFields "internal_id" "X42").mp hmem
     have hfm' : fm = { field_name := "title", translate := true } ∨
         fm = { field_name := "internal_id", translate := false } := by
       simpa [exMapFields] using hfm
     rcases hfm' with rfl | rfl
     · exact absurd hn (by decide)
     · exact absurd ht (by decide)⟩

theorem translate_text_core_spec (env : Env) (data : DeepLRequest)
    (hlog : ∀ m, env.logError m = .ok ()) :
    (∃ v, translate_text_handle env (translate_text_try env data) = .ok v)
    ∧ (∀ s, translate_text_handle env (translate_text_try env data) = .ok (some s) ↔
        ∃ resp rest, env.post data = .ok resp ∧ resp.status_code = 200 ∧
          resp.body = .translations (some s :: rest)) := by
  have hhandle : ∀ t : Except PyExc (Option String),
      ∃ v, translate_text_handle env t = .ok v := by
    intro t
    match t with
    | .ok v => exact ⟨v, rfl⟩
    | .error (.requestException m) =>
      refine ⟨none, ?_⟩
      simp only [translate_text_handle]
      rw [hlog]
    | .error (.other m) =>
      refine ⟨none, ?_⟩
      simp only [translate_text_handle]
      rw [hlog]
  refine ⟨hhandle _, ?_⟩
  intro s
  cases hp : env.post data with
  | error e =>
    have h1 : translate_text_try env data = .error e := by
      unfold translate_text_try
      rw [hp]
    rw [h1]
    constructor
    · intro h2
      cases e with
      | requestException m =>
        simp only [translate_text_handle] at h2
        rw [hlog] at h2
        cases h2
      | other m =>
        simp only [translate_text_handle] at h2
        rw [hlog] at h2
        cases h2
    · rintro ⟨resp, rest, hresp, -, -⟩
      cases hresp
  | ok resp =>
    by_cases h200 : resp.status_code = 200
    · cases hb : resp.body with
      | invalid =>
        have h1 : translate_text_try env data = .error (.other "Expecting value") := by
          simp only [translate_text_try, hp, hb]
          rw [if_pos h200]
        rw [h1]
        constructor
        · intro h2
          simp only [translate_text_handle] at h2
          rw [hlog] at h2
          cases h2
        · rintro ⟨resp', rest, hresp', -, hb'⟩
          injection hresp' with h3
          subst h3
          rw [hb] at hb'
          cases hb'
      | noTranslations =>
        have h1 : translate_text_try env data = .ok none := by
          simp only [translate_text_try, hp, hb]
          rw [if_pos h200]
        rw [h1]
        constructor
        · intro h2
          cases h2
        · rintro ⟨resp', rest, hresp', -, hb'⟩
          injection hresp' with h3
          subst h3
          rw [hb] at hb'
          cases hb'
      | translations items =>
        cases items with
        | nil =>
          have h1 : translate_text_try env data = .ok none := by
            simp only [translate_text_try, hp, hb]
            rw [if_pos h200]
          rw [h1]
          constructor
          · intro h2
            cases h2
          · rintro ⟨resp', rest, hresp', -, hb'⟩
            injection hresp' with h3
            subst h3
            rw [hb] at hb'
            injection hb' with h4
            cases h4
        | cons first rest' =>
          have h1 : translate_text_try env data = .ok first := by
            simp only [translate_text_try, hp, hb]
            rw [if_pos h200]
          rw [h1]
          constructor
          · intro h2
            injection h2 with h3
            exact ⟨resp, rest', rfl, h200, by rw [hb, h3]⟩
          · rintro ⟨resp', rest2, hresp', -, hb'⟩
            injection hresp' with h3
            subst h3
            rw [hb] at hb'
            injection hb' with h4
            injection h4 with h5 h6
            rw [h5]
            rfl
    · have h1 : translate_text_try env data = .ok none := by
        simp only [translate_text_try, hp]
        rw [if_neg h200, hlog]
      rw [h1]
      constructor
      · intro h2
        cases h2
      · rintro ⟨resp', rest, hresp', h200', -⟩
        injection hresp' with h3
        subst h3
        exact absurd h200' h200

/-- C8: with a functioning logger, `translate_text` never raises to the
caller (it always returns `.ok`), sends exactly the assembled request
(upper-cased languages), and returns `some s` precisely when the provider
answered HTTP 200 whose `translations` array starts with an entry whose
`text` is `s`; every transport error, non-200 status, empty or malformed
`translations` yields the `None` sentinel. -/
theorem translate_text_spec (env : Env) (api_key text source_lang target_lang : String)
    (hlog : ∀ m, env.logError m = .ok ()) :
    (translate_text env api_key text source_lang target_lang).1 =
      deeplRequest api_key text source_lang target_lang
    ∧ (∃ v, (translate_text env api_key text source_lang target_lang).2 = .ok v)
    ∧ (∀ s, (translate_text env api_key text source_lang target_lang).2 = .ok (some s) ↔
        ∃ resp rest,
          env.post (deeplRequest api_key text source_lang target_lang) = .ok resp ∧
          resp.status_code = 200 ∧ resp.body = .translations (some s :: rest)) :=
  ⟨rfl,
   (translate_text_core_spec env (deeplRequest api_key text source_lang target_lang) hlog).1,
   (translate_text_core_spec env (deeplRequest api_key text source_lang target_lang) hlog).2⟩

/-- C8 witness: the scenario environment (logger functioning), EN target:
the sentinel-free success path returns `some "Hello"`. -/
theorem translate_text_spec_witness :
    (translate_text exEnv "K" "Hallo" "de" "EN").1 = deeplRequest "K" "Hallo" "de" "EN"
    ∧ (∃ v, (translate_text exEnv "K" "Hallo" "de" "EN").2 = .ok v)
    ∧ ((translate_text exEnv "K" "Hallo" "de" "EN").2 = .ok (some "Hello") ↔
        ∃ resp rest,
          exEnv.post (deeplRequest "K" "Hallo" "de" "EN") = .ok resp ∧
          resp.status_code = 200 ∧ resp.body = .translations (some "Hello" :: rest)) :=
  ⟨(translate_text_spec exEnv "K" "Hallo" "de" "EN" (fun _ => rfl)).1,
   (translate_text_spec exEnv "K" "Hallo" "de" "EN" (fun _ => rfl)).2.1,
   (translate_text_spec exEnv "K" "Hallo" "de" "EN" (fun _ => rfl)).2.2 "Hello"⟩

theorem on_doc_update_none (mapOpt : Option (List FieldMapping)) (doc : Doc) :
    on_doc_update none mapOpt doc = none := rfl

theorem on_doc_update_some_none (st : Settings) (doc : Doc) :
    on_doc_update (some st) none doc =
      if st.enable_auto_translation && st.auto_translate_on_update then none
      else none := rfl

theorem on_doc_update_some_some (st : Settings) (fms : List FieldMapping) (doc : Doc) :
    on_doc_update (some st) (some fms) doc =
      if st.enable_auto_translation && st.auto_translate_on_update then
        if fms = [] then none
        else
          if fms.any (fun fm => fm.translate && doc.changed.contains fm.field_name) then
            some { method := "versioned_translator.logic.translate_to_all_languages",
                   doctype := doc.doctype, docname := doc.name,
                   queue := "long", timeout := 600 }
          else none
      else none := rfl

/-- C7: the update hook enqueues a job iff settings are present with both
`enable_auto_translation` and `auto_translate_on_update` set and the
document's type has an active map one of whose `translate = true`
mappings names a changed field; with `auto_translate_on_update = false`
it never enqueues, whatever changed. -/
theorem on_doc_update_spec :
    (∀ (settingsOpt : Option Settings) (mapOpt : Option (List FieldMapping)) (doc : Doc),
      (on_doc_update settingsOpt mapOpt doc).isSome = true ↔
        ∃ st, settingsOpt = some st ∧ st.enable_auto_translation = true ∧
          st.auto_translate_on_update = true ∧
          ∃ fms, mapOpt = some fms ∧
            ∃ fm ∈ fms, fm.translate = true ∧ fm.field_name ∈ doc.changed)
    ∧ (∀ (st : Settings) (mapOpt : Option (List FieldMapping)) (doc : Doc),
        st.auto_translate_on_update = false →
        on_doc_update (some st) mapOpt doc = none) := by
  have main : ∀ (settingsOpt : Option Settings) (mapOpt : Option (List FieldMapping))
      (doc : Doc),
      (on_doc_update settingsOpt mapOpt doc).isSome = true ↔
        ∃ st, settingsOpt = some st ∧ st.enable_auto_translation = true ∧
          st.auto_translate_on_update = true ∧
          ∃ fms, mapOpt = some fms ∧
            ∃ fm ∈ fms, fm.translate = true ∧ fm.field_name ∈ doc.changed := by
    intro settingsOpt mapOpt doc
    cases settingsOpt with
    | none => simp [on_doc_update_none]
    | some st =>
      cases mapOpt with
      | none =>
        rw [on_doc_update_some_none, ite_self]
        simp
      | some fms =>
        rw [on_doc_update_some_some]
        by_cases hflags : st.enable_auto_translation && st.auto_translate_on_update
        · rw [if_pos hflags]
          rw [Bool.and_eq_true] at hflags
          obtain ⟨he, ha⟩ := hflags
          by_cases hfms : fms = []
          · subst hfms
            rw [if_pos rfl]
            simp
          · rw [if_neg hfms]
            by_cases hrel : fms.any
                (fun fm => fm.translate && doc.changed.contains fm.field_name) = true
            · rw [if_pos hrel]
              simp only [Option.isSome_some, true_iff]
              obtain ⟨fm, hfm, hb⟩ := List.any_eq_true.mp hrel
              rw [Bool.and_eq_true] at hb
              obtain ⟨hbt, hbc⟩ := hb
              exact ⟨st, rfl, he, ha, fms, rfl, fm, hfm, hbt, List.elem_iff.mp hbc⟩
            · rw [if_neg hrel]
              simp only [Option.isSome_none, Bool.false_eq_true, false_iff]
              rintro ⟨st', hst', -, -, fms', hfms', fm, hfm, hbt, hbc⟩
              injection hfms' with h1
              subst h1
              refine hrel (List.any_eq_true.mpr ⟨fm, hfm, ?_⟩)
              rw [Bool.and_eq_true]
              exact ⟨hbt, List.elem_iff.mpr hbc⟩
        · rw [if_neg hflags]
          simp only [Option.isSome_none, Bool.false_eq_true, false_iff]
          rintro ⟨st', hst', he', ha', -⟩
          injection hst' with h1
          subst h1
          refine hflags ?_
          rw [Bool.and_eq_true]
          exact ⟨he', ha'⟩
  refine ⟨main, ?_⟩
  intro st mapOpt doc ha
  cases hr : on_doc_update (some st) mapOpt doc with
  | none => rfl
  | some call =>
    have hs : (on_doc_update (some st) mapOpt doc).isSome = true := by
      rw [hr]
      rfl
    obtain ⟨st', hst', -, ha', -⟩ := (main _ _ _).mp hs
    injection hst' with h1
    subst h1
    rw [ha] at ha'
    cases ha'

/-- C7 witness: enqueues in the scenario configuration (flags on, `title`
changed), and never enqueues once `auto_translate_on_update` is off. -/
theorem on_doc_update_spec_witness :
    ((on_doc_update (some exSettings) (some exMap) exDoc).isSome = true ↔
      ∃ st, (some exSettings : Option Settings) = some st ∧
        st.enable_auto_translation = true ∧ st.auto_translate_on_update = true ∧
        ∃ fms, (some exMap : Option (List FieldMapping)) = some fms ∧
          ∃ fm ∈ fms, fm.translate = true ∧ fm.field_name ∈ exDoc.changed)
    ∧ on_doc_update (some { exSettings with auto_translate_on_update := false })
        (some exMap) exDoc = none :=
  ⟨on_doc_update_spec.1 (some exSettings) (some exMap) exDoc,
   on_doc_update_spec.2 { exSettings with auto_translate_on_update := false }
     (some exMap) exDoc rfl⟩

theorem translateFields_cons_error {env : Env} {ak sl tl fn fv : String}
    {acc : List (String × String)} {trace : List DeepLRequest}
    {rest : List (String × String)} {e : PyExc}
    (h : (translate_text env ak fv sl tl).2 = .error e) :
    translateFields env ak sl tl acc trace ((fn, fv) :: rest) =
      (acc, trace ++ [(translate_text env ak fv sl tl).1], some e) := by
  simp only [translateFields, h]

theorem translateFields_cons_ok {env : Env} {ak sl tl fn fv : String}
    {acc : List (String × String)} {trace : List DeepLRequest}
    {rest : List (String × String)} {tt : Option String}
    (h : (translate_text env ak fv sl tl).2 = .ok tt) :
    translateFields env ak sl tl acc trace ((fn, fv) :: rest) =
      translateFields env ak sl tl
        (match tt with
         | some t => if t = "" then acc else dictInsert fn t acc
         | none => acc)
        (trace ++ [(translate_text env ak fv sl tl).1]) rest := by
  simp only [translateFields, h]
  cases tt <;> rfl

theorem translateFields_trace (env : Env) (ak sl tl : String) :
    ∀ (fields : List (String × String)) (acc : List (String × String))
      (trace : List DeepLRequest) (req : DeepLRequest),
      req ∈ (translateFields env ak sl tl acc trace fields).2.1 →
      req ∈ trace ∨ req.target_lang = pyUpper tl := by
  intro fields
  induction fields with
  | nil =>
    intro acc trace req h
    exact Or.inl h
  | cons fv rest ih =>
    intro acc trace req h
    obtain ⟨field_name, field_value⟩ := fv
    cases hr : (translate_text env ak field_value sl tl).2 with
    | error e =>
      rw [translateFields_cons_error hr] at h
      rcases List.mem_append.mp h with h1 | h1
      · exact Or.inl h1
      · rw [List.mem_singleton] at h1
        subst h1
        exact Or.inr rfl
    | ok tt =>
      rw [translateFields_cons_ok hr] at h
      rcases ih _ _ _ h with h1 | h1
      · rcases List.mem_append.mp h1 with h2 | h2
        · exact Or.inl h2
        · rw [List.mem_singleton] at h2
          subst h2
          exact Or.inr rfl
      · exact Or.inr h1

theorem processLanguages_cons_ok {env : Env} {dt dn ak sl vid tl : String}
    {ftt : List (String × String)} {rest : List String} {store : Store}
    {trace : List DeepLRequest}
    (h : (translateFields env ak sl tl [] [] ftt).2.2 = none) :
    processLanguages env dt dn ak sl vid ftt (tl :: rest) store trace =
      processLanguages env dt dn ak sl vid ftt rest
        (if (translateFields env ak sl tl [] [] ftt).1 = [] then store
         else save_translation_to_store env.nowTime dt dn vid (pyLower tl)
           (translateFields env ak sl tl [] [] ftt).1 store)
        (trace ++ (translateFields env ak sl tl [] [] ftt).2.1) := by
  simp only [processLanguages, h]

theorem processLanguages_cons_exc_logok {env : Env} {dt dn ak sl vid tl : String}
    {ftt : List (String × String)} {rest : List String} {store : Store}
    {trace : List DeepLRequest} {e : PyExc}
    (h : (translateFields env ak sl tl [] [] ftt).2.2 = some e)
    (hlog : env.logError ("Error translating " ++ dt ++ " " ++ dn ++ " to "
        ++ tl ++ ": " ++ pyStr e) = .ok ()) :
    processLanguages env dt dn ak sl vid ftt (tl :: rest) store trace =
      processLanguages env dt dn ak sl vid ftt rest
        (update_translation_status dt dn vid tl "Failed" store)
        (trace ++ (translateFields env ak sl tl [] [] ftt).2.1) := by
  simp only [processLanguages, h, hlog]

theorem processLanguages_cons_exc_logfail {env : Env} {dt dn ak sl vid tl : String}
    {ftt : List (String × String)} {rest : List String} {store : Store}
    {trace : List DeepLRequest} {e e' : PyExc}
    (h : (translateFields env ak sl tl [] [] ftt).2.2 = some e)
    (hlog : env.logError ("Error translating " ++ dt ++ " " ++ dn ++ " to "
        ++ tl ++ ": " ++ pyStr e) = .error e') :
    processLanguages env dt dn ak sl vid ftt (tl :: rest) store trace =
      (store, trace ++ (translateFields env ak sl tl [] [] ftt).2.1) := by
  simp only [processLanguages, h, hlog]

theorem processLanguages_mem (env : Env) (dt dn ak sl vid : String)
    (ftt : List (String × String)) (r : StoreRow) :
    ∀ (langs : List String) (store : Store) (trace : List DeepLRequest),
      r ∈ store →
      (∀ lang ∈ langs, rowMatches dt dn vid (pyLower lang) r = false ∧
        rowMatches dt dn vid lang r = false) →
      r ∈ (processLanguages env dt dn ak sl vid ftt langs store trace).1 := by
  intro langs
  induction langs with
  | nil =>
    intro store trace hr _
    exact hr
  | cons tl rest ih =>
    intro store trace hr hl
    obtain ⟨h1, h2⟩ := hl tl (List.mem_cons_self _ _)
    have hl' : ∀ lang ∈ rest, rowMatches dt dn vid (pyLower lang) r = false ∧
        rowMatches dt dn vid lang r = false :=
      fun lang hlang => hl lang (List.mem_cons_of_mem _ hlang)
    cases hexc : (translateFields env ak sl tl [] [] ftt).2.2 with
    | none =>
      rw [processLanguages_cons_ok hexc]
      refine ih _ _ ?_ hl'
      by_cases htf : (translateFields env ak sl tl [] [] ftt).1 = []
      · rw [if_pos htf]
        exact hr
      · rw [if_neg htf]
        exact mem_save_of_not_match hr h1
    | some e =>
      cases hlg : env.logError ("Error translating " ++ dt ++ " " ++ dn ++ " to "
          ++ tl ++ ": " ++ pyStr e) with
      | ok u =>
        cases u
        rw [processLanguages_cons_exc_logok hexc hlg]
        exact ih _ _ (mem_update_status_of_not_match hr h2) hl'
      | error e' =>
        rw [processLanguages_cons_exc_logfail hexc hlg]
        exact hr

theorem processLanguages_language_invariant (env : Env) (dt dn ak sl vid : String)
    (ftt : List (String × String)) (T : List String) :
    ∀ (langs : List String) (store : Store) (trace : List DeepLRequest),
      (∀ lang ∈ langs, lang ∈ T) →
      (∀ r ∈ store,
        (r.translation_status = "Completed" → ∃ lang ∈ T, r.language = pyLower lang) ∧
        (r.translation_status = "Failed" → ∃ lang ∈ T, r.language = lang)) →
      (∀ q ∈ trace, ∃ lang ∈ T, q.target_lang = pyUpper lang) →
      (∀ r ∈ (processLanguages env dt dn ak sl vid ftt langs store trace).1,
        (r.translation_status = "Completed" → ∃ lang ∈ T, r.language = pyLower lang) ∧
        (r.translation_status = "Failed" → ∃ lang ∈ T, r.language = lang))
      ∧ (∀ q ∈ (processLanguages env dt dn ak sl vid ftt langs store trace).2,
          ∃ lang ∈ T, q.target_lang = pyUpper lang) := by
  intro langs
  induction langs with
  | nil =>
    intro store trace _ hstore htrace
    exact ⟨hstore, htrace⟩
  | cons tl rest ih =>
    intro store trace hT hstore htrace
    have hTtl : tl ∈ T := hT tl (List.mem_cons_self _ _)
    have hT' : ∀ lang ∈ rest, lang ∈ T := fun l hl => hT l (List.mem_cons_of_mem _ hl)
    have htrace' : ∀ q ∈ trace ++ (translateFields env ak sl tl [] [] ftt).2.1,
        ∃ lang ∈ T, q.target_lang = pyUpper lang := by
      intro q hq
      rcases List.mem_append.mp hq with h | h
      · exact htrace q h
      · rcases translateFields_trace env ak sl tl ftt [] [] q h with h' | h'
        · simp at h'
        · exact ⟨tl, hTtl, h'⟩
    cases hexc : (translateFields env ak sl tl [] [] ftt).2.2 with
    | none =>
      rw [processLanguages_cons_ok hexc]
      refine ih _ _ hT' ?_ htrace'
      intro r hr
      by_cases htf : (translateFields env ak sl tl [] [] ftt).1 = []
      · rw [if_pos htf] at hr
        exact hstore r hr
      · rw [if_neg htf] at hr
        rcases save_rows hr with h | ⟨hlang, hstat⟩
        · exact hstore r h
        · constructor
          · intro _
            exact ⟨tl, hTtl, hlang⟩
          · intro hf
            rw [hstat] at hf
            exact absurd hf (by decide)
    | some e =>
      cases hlg : env.logError ("Error translating " ++ dt ++ " " ++ dn ++ " to "
          ++ tl ++ ": " ++ pyStr e) with
      | ok u =>
        cases u
        rw [processLanguages_cons_exc_logok hexc hlg]
        refine ih _ _ hT' ?_ htrace'
        intro r hr
        rcases update_status_rows hr with h | ⟨hlang, hstat⟩
        · exact hstore r h
        · constructor
          · intro hc
            rw [hstat] at hc
            exact absurd hc (by decide)
          · intro _
            exact ⟨tl, hTtl, hlang⟩
      | error e' =>
        rw [processLanguages_cons_exc_logfail hexc hlg]
        exact ⟨hstore, htrace'⟩

theorem translate_to_all_languages_some_some (env : Env) (dt dn : String) (doc : Doc)
    (settings : Settings) (mapOpt : Option (List FieldMapping)) (store : Store) :
    translate_to_all_languages env dt dn (some doc) (some settings) mapOpt store =
      if settings.api_key = "" then (store, [])
      else if settings.default_target_languages = "" then (store, [])
      else
        match mapOpt with
        | none => (store, [])
        | some field_mappings =>
          if field_mappings = [] then (store, [])
          else if extract_fields doc field_mappings = [] then (store, [])
          else
            processLanguages env dt dn settings.api_key
              (if settings.default_source_language = "" then "de"
               else settings.default_source_language)
              (get_version_id env.nowStr doc)
              (extract_fields doc field_mappings)
              ((pySplit settings.default_target_languages).filterMap
                (fun lang =>
                  if pyStrip lang = "" then none else some (pyUpper (pyStrip lang))))
              store [] := rfl

theorem translate_to_all_languages_cases (env : Env) (dt dn : String)
    (docOpt : Option Doc) (settingsOpt : Option Settings)
    (mapOpt : Option (List FieldMapping)) (store : Store) :
    translate_to_all_languages env dt dn docOpt settingsOpt mapOpt store = (store, []) ∨
      ∃ doc settings field_mappings,
        docOpt = some doc ∧ settingsOpt = some settings ∧
        mapOpt = some field_mappings ∧
        translate_to_all_languages env dt dn docOpt settingsOpt mapOpt store =
          processLanguages env dt dn settings.api_key
            (if settings.default_source_language = "" then "de"
             else settings.default_source_language)
            (get_version_id env.nowStr doc)
            (extract_fields doc field_mappings)
            ((pySplit settings.default_target_languages).filterMap
              (fun lang =>
                if pyStrip lang = "" then none else some (pyUpper (pyStrip lang))))
            store [] := by
  cases docOpt with
  | none => exact Or.inl rfl
  | some doc =>
    cases settingsOpt with
    | none => exact Or.inl rfl
    | some settings =>
      by_cases hkey : settings.api_key = ""
      · refine Or.inl ?_
        rw [translate_to_all_languages_some_some, if_pos hkey]
      · by_cases htl : settings.default_target_languages = ""
        · refine Or.inl ?_
          rw [translate_to_all_languages_some_some, if_neg hkey, if_pos htl]
        · cases mapOpt with
          | none =>
            refine Or.inl ?_
            rw [translate_to_all_languages_some_some, if_neg hkey, if_neg htl]
          | some fms =>
            have hred : translate_to_all_languages env dt dn (some doc) (some settings)
                (some fms) store =
                (if fms = [] then (store, [])
                 else if extract_fields doc fms = [] then (store, [])
                 else
                   processLanguages env dt dn settings.api_key
                     (if settings.default_source_language = "" then "de"
                      else settings.default_source_language)
                     (get_version_id env.nowStr doc)
                     (extract_fields doc fms)
                     ((pySplit settings.default_target_languages).filterMap
                       (fun lang =>
                         if pyStrip lang = "" then none
                         else some (pyUpper (pyStrip lang))))
                     store []) := by
              rw [translate_to_all_languages_some_some, if_neg hkey, if_neg htl]
            by_cases hfms : fms = []
            · refine Or.inl ?_
              rw [hred, if_pos hfms]
            · by_cases hext : extract_fields doc fms = []
              · refine Or.inl ?_
                rw [hred, if_neg hfms, if_pos hext]
              · refine Or.inr ⟨doc, settings, fms, rfl, rfl, rfl, ?_⟩
                rw [hred, if_neg hfms, if_neg hext]

/-- C1 counterexample: in the design document's end-to-end scenario (the
provider returns "Hello" for EN and fails with a transport error for FR),
the job produces exactly ONE store row — the Completed EN row — and no FR
row at all, Failed or otherwise: `translate_text` swallows the transport
error and returns the `None` sentinel, so the per-language handler that
would record a Failed row never runs. -/
theorem translate_job_scenario_no_failed_row :
    (translate_to_all_languages exEnv "Article" "A1" (some exDoc) (some exSettings)
        (some exMap) []).1 = [enRow]
    ∧ enRow.language = "en" ∧ enRow.translation_status = "Completed"
    ∧ ((translate_to_all_languages exEnv "Article" "A1" (some exDoc) (some exSettings)
        (some exMap) []).1.filter
          (fun r => r.language == "fr" || r.language == "FR")).length = 0 :=
  ⟨by decide, rfl, rfl, by decide⟩

/-- C1 (amended): the scenario yields exactly the Completed EN row keyed
`en` with content `{"title": "Hello"}` and no FR row; and the EN row is
in the final store whatever the provider outcome for FR is — the EN write
is isolated from the FR failure. -/
theorem translate_job_scenario_en_isolated :
    (translate_to_all_languages exEnv "Article" "A1" (some exDoc) (some exSettings)
        (some exMap) []).1 = [enRow]
    ∧ enRow.translated_content = "\x7b\"title\": \"Hello\"\x7d"
    ∧ ∀ fr : Except PyExc HttpResponse,
        enRow ∈ (translate_to_all_languages (exEnvFr fr) "Article" "A1" (some exDoc)
          (some exSettings) (some exMap) []).1 := by
  refine ⟨by decide, rfl, ?_⟩
  intro fr
  have hstep : translate_to_all_languages (exEnvFr fr) "Article" "A1" (some exDoc)
      (some exSettings) (some exMap) [] =
      processLanguages (exEnvFr fr) "Article" "A1" "K" "de" exVid [("title", "Hallo")]
        ["FR"] [enRow] [reqEN] := rfl
  rw [hstep]
  apply processLanguages_mem
  · exact List.mem_singleton.mpr rfl
  · intro lang hlang
    rw [List.mem_singleton] at hlang
    subst hlang
    exact ⟨by decide, by decide⟩

/-- C10: every request the job sends carries the upper-cased (stripped)
configured language code; every Completed row the job writes (from an
empty store) is keyed by the lower-cased code — in particular its key is
a `pyLower` fixpoint — and every Failed row is keyed by the upper-cased
code. -/
theorem translate_job_language_case (env : Env) (doctype docname : String)
    (docOpt : Option Doc) (settingsOpt : Option Settings)
    (mapOpt : Option (List FieldMapping)) :
    (∀ req ∈ (translate_to_all_languages env doctype docname docOpt settingsOpt
        mapOpt []).2,
      ∃ st, settingsOpt = some st ∧
        ∃ raw ∈ pySplit st.default_target_languages,
          pyStrip raw ≠ "" ∧ req.target_lang = pyUpper (pyStrip raw))
    ∧ (∀ r ∈ (translate_to_all_languages env doctype docname docOpt settingsOpt
        mapOpt []).1,
        (r.translation_status = "Completed" →
          r.language = pyLower r.language ∧
          ∃ st, settingsOpt = some st ∧
            ∃ raw ∈ pySplit st.default_target_languages,
              r.language = pyLower (pyStrip raw))
        ∧ (r.translation_status = "Failed" →
          ∃ st, settingsOpt = some st ∧
            ∃ raw ∈ pySplit st.default_target_languages,
              r.language = pyUpper (pyStrip raw))) := by
  rcases translate_to_all_languages_cases env doctype docname docOpt settingsOpt
      mapOpt [] with heq | ⟨doc, settings, fms, hdoc, hset, hmap, heq⟩
  · constructor <;> intro x hx <;> rw [heq] at hx <;> simp at hx
  · subst hset
    rw [heq]
    obtain ⟨hst, htr⟩ := processLanguages_language_invariant env doctype docname
      settings.api_key
      (if settings.default_source_language = "" then "de"
       else settings.default_source_language)
      (get_version_id env.nowStr doc) (extract_fields doc fms)
      ((pySplit settings.default_target_languages).filterMap
        (fun lang => if pyStrip lang = "" then none else some (pyUpper (pyStrip lang))))
      ((pySplit settings.default_target_languages).filterMap
        (fun lang => if pyStrip lang = "" then none else some (pyUpper (pyStrip lang))))
      [] [] (fun _ h => h) (by simp) (by simp)
    constructor
    · intro req hreq
      obtain ⟨lang, hlangT, hup⟩ := htr req hreq
      obtain ⟨raw, hraw, hres⟩ := List.mem_filterMap.mp hlangT
      by_cases hs : pyStrip raw = ""
      · rw [if_pos hs] at hres
        cases hres
      · rw [if_neg hs] at hres
        injection hres with h1
        refine ⟨settings, rfl, raw, hraw, hs, ?_⟩
        rw [hup, ← h1]
        exact pyUpper_pyUpper _
    · intro r hr
      obtain ⟨hc, hf⟩ := hst r hr
      constructor
      · intro hstat
        obtain ⟨lang, hlangT, hlow⟩ := hc hstat
        obtain ⟨raw, hraw, hres⟩ := List.mem_filterMap.mp hlangT
        by_cases hs : pyStrip raw = ""
        · rw [if_pos hs] at hres
          cases hres
        · rw [if_neg hs] at hres
          injection hres with h1
          exact ⟨by rw [hlow, pyLower_pyLower], settings, rfl, raw, hraw,
            by rw [hlow, ← h1, pyLower_pyUpper]⟩
      · intro hstat
        obtain ⟨lang, hlangT, hleq⟩ := hf hstat
        obtain ⟨raw, hraw, hres⟩ := List.mem_filterMap.mp hlangT
        by_cases hs : pyStrip raw = ""
        · rw [if_pos hs] at hres
          cases hres
        · rw [if_neg hs] at hres
          injection hres with h1
          exact ⟨settings, rfl, raw, hraw, by rw [hleq, ← h1]⟩

/-- C10 witness: in the scenario, the EN request sent carries the
upper-cased code; and in the logging-failure variant (the one path that
records Failed) the FR row is keyed by the upper-cased "FR". -/
theorem translate_job_language_case_witness :
    (∃ st, (some exSettings : Option Settings) = some st ∧
      ∃ raw ∈ pySplit st.default_target_languages,
        pyStrip raw ≠ "" ∧ reqEN.target_lang = pyUpper (pyStrip raw))
    ∧ (∃ st, (some exSettings : Option Settings) = some st ∧
        ∃ raw ∈ pySplit st.default_target_languages,
          frFailedRow.language = pyUpper (pyStrip raw)) :=
  ⟨(translate_job_language_case exEnv "Article" "A1" (some exDoc) (some exSettings)
      (some exMap)).1 reqEN (by decide),
   ((translate_job_language_case exEnvLogFail "Article" "A1" (some exDoc)
      (some exSettings) (some exMap)).2 frFailedRow (by decide)).2 rfl⟩
